import Mathlib

/-!
Shallow embedding of the multi-region e-commerce recommendation engine
(`app/models/recommendation.py` together with the pydantic schemas in
`app/models/schemas.py` and the object-store wrapper in
`app/core/minio_client.py`), plus theorems settling the frozen claims
about it.

Modelling conventions:
* interaction weights, similarity values and scores are rationals (the
  claims under study are about ordering, membership and sign, not about
  floating-point rounding);
* a pandas DataFrame cell that is NaN (missing) is `Option.none`;
* pydantic model construction validates its `Field` bounds; a violated
  bound raises `ValidationError`, modelled by returning `none`;
* `np.argsort` is modelled as a stable ascending sort of the index list
  (ties keep index order), and `pandas.sort_values` / Python `sorted`
  as a stable sort;
* Python exceptions are modelled with `Except` / `Option` at the points
  where the source can raise.
-/

namespace RecEngine

/-- One row of the `products_with_features.csv` table, indexed by
`product_id`.  Only the columns the engine reads are modelled; `none`
means the column is absent or NaN for this product. -/
structure FeatureRow where
  product_category_name : Option String
  price : Option ℚ
deriving Repr, DecidableEq

/-- `product_features`: DataFrame indexed by `product_id`. -/
abbrev Features := List (String × FeatureRow)

/-- `featureLookup fs pid` models `product_features.loc[pid]` guarded by
`pid in product_features.index`. -/
def featureLookup (fs : Features) (pid : String) : Option FeatureRow :=
  (fs.find? (fun x => x.1 == pid)).map (fun x => x.2)

/-- `user_item_matrix`: rows keyed by `user_id`, columns keyed by
`product_id`; a missing entry is an unobserved (NaN) cell. -/
structure UIMatrix where
  users : List String
  products : List String
  entries : List (String × String × ℚ)
deriving Repr, DecidableEq

/-- The cell of the matrix at (user, product); `none` = NaN. -/
def UIMatrix.cell (m : UIMatrix) (u p : String) : Option ℚ :=
  (m.entries.find? (fun e => e.1 == u && e.2.1 == p)).map (fun e => e.2.2)

/-- `user_item_matrix.loc[u].dropna()`: the observed (product, weight)
pairs of the row of `u`, in column order. -/
def UIMatrix.rowObserved (m : UIMatrix) (u : String) : List (String × ℚ) :=
  m.products.filterMap (fun p => (m.cell u p).map (fun r => (p, r)))

/-- The product ids of the dropna row of `u` (the purchased set used by
`get_user_recommendations`). -/
def UIMatrix.rowProducts (m : UIMatrix) (u : String) : List String :=
  (m.rowObserved u).map (fun x => x.1)

/-- One value of `user_item_matrix.sum(axis=0)`: the sum of the observed
weights of a product column (pandas sums ignoring NaN). -/
def UIMatrix.colSum (m : UIMatrix) (p : String) : ℚ :=
  ((m.users.filterMap (fun u => m.cell u p)).foldl (· + ·) 0)

/-- A dense similarity matrix (`user_similarities` or
`item_similarities`), stored as a list of rows. -/
abbrev SimMatrix := List (List ℚ)

/-- Total number of entries of a similarity matrix (`ndarray.size`). -/
def simSize (s : SimMatrix) : Nat := (s.map (fun r => r.length)).foldl (· + ·) 0

/-- `np.argsort(xs)`: the indices of `xs` sorted by value ascending.
Ties keep index order (stable model of the numpy sort). -/
def argsortAsc (xs : List ℚ) : List Nat :=
  List.insertionSort (fun i j => xs.getD i 0 ≤ xs.getD j 0) (List.range xs.length)

/-- `np.argsort(xs)[::-1]`: indices by value descending. -/
def argsortDesc (xs : List ℚ) : List Nat := (argsortAsc xs).reverse

/-! Pydantic schemas (`app/models/schemas.py`).  Construction checks the
declared `Field` bounds; an out-of-range value raises `ValidationError`,
modelled as `none`. -/

/-- `RecommendationItem` (schemas.py lines 13-28). -/
structure RecommendationItem where
  product_id : String
  product_name : Option String
  category : Option String
  score : ℚ
  price : Option ℚ
  rating : Option ℚ
  region : Option String
deriving Repr, DecidableEq

/-- The `Field(None, ge=0.0, le=5.0)` validator on `rating`. -/
def ratingOk : Option ℚ → Bool
  | none => true
  | some r => decide (0 ≤ r) && decide (r ≤ 5)

/-- Pydantic construction of `RecommendationItem`: `score` must satisfy
`ge=0.0, le=1.0`, `rating` must satisfy `ge=0.0, le=5.0` when present. -/
def mkRecommendationItem (product_id : String) (product_name category : Option String)
    (score : ℚ) (price rating : Option ℚ) (region : Option String) :
    Option RecommendationItem :=
  if decide (0 ≤ score) && decide (score ≤ 1) && ratingOk rating then
    some ⟨product_id, product_name, category, score, price, rating, region⟩
  else none

/-- `SimilarProduct` (schemas.py lines 86-93). -/
structure SimilarProduct where
  product_id : String
  product_name : Option String
  similarity_score : ℚ
  category : Option String
  shared_features : Option (List String)
deriving Repr, DecidableEq

/-- Pydantic construction of `SimilarProduct`: `similarity_score` must
satisfy `ge=0.0, le=1.0`. -/
def mkSimilarProduct (product_id : String) (product_name : Option String)
    (similarity_score : ℚ) (category : Option String) : Option SimilarProduct :=
  if decide (0 ≤ similarity_score) && decide (similarity_score ≤ 1) then
    some ⟨product_id, product_name, similarity_score, category, none⟩
  else none

/-- `TrendingProduct` (schemas.py lines 76-84). -/
structure TrendingProduct where
  product_id : String
  product_name : Option String
  category : Option String
  trend_score : ℚ
  interaction_count : Int
  growth_rate : ℚ
  region : String
deriving Repr, DecidableEq

/-- Pydantic construction of `TrendingProduct`: `trend_score` must
satisfy `ge=0.0` and `interaction_count` must satisfy `ge=0`. -/
def mkTrendingProduct (product_id : String) (product_name category : Option String)
    (trend_score : ℚ) (interaction_count : Int) (growth_rate : ℚ) (region : String) :
    Option TrendingProduct :=
  if decide (0 ≤ trend_score) && decide (0 ≤ interaction_count) then
    some ⟨product_id, product_name, category, trend_score, interaction_count,
          growth_rate, region⟩
  else none

/-- `AggregationMethod` (schemas.py lines 6-11). -/
inductive AggregationMethod where
  | merge
  | highest_score
  | weighted_average
  | round_robin
deriving Repr, DecidableEq

/-- Stand-in for the fitted `TruncatedSVD` estimator: the configured
component count, the learned component matrix and a fitted flag.  The
numeric fitting itself is an external library call (see `Trainer`). -/
structure SvdModel where
  n_components : Nat
  components : List (List ℚ)
  fitted : Bool
deriving Repr, DecidableEq

/-- The mutable state of a `RecommendationEngine` instance
(recommendation.py lines 26-45). -/
structure Engine where
  region : String
  user_item_matrix : Option UIMatrix
  svd_model : Option SvdModel
  user_similarities : Option SimMatrix
  item_similarities : Option SimMatrix
  product_features : Option Features
  models_loaded : Bool
  last_model_update : Option Nat
deriving Repr, DecidableEq

/-- `SIMILARITY_THRESHOLD = 0.1` from `app/core/config.py` line 62. -/
def SIMILARITY_THRESHOLD : ℚ := 1/10

/-- Python truthiness of the optional `min_rating` float
(`None` and `0.0` are falsy). -/
def floatTruthy : Option ℚ → Bool
  | none => false
  | some r => r != 0

/-- Python truthiness of the optional `categories` list
(`None` and `[]` are falsy). -/
def listTruthy : Option (List String) → Bool
  | none => false
  | some l => !l.isEmpty

/-- Python truthiness of an optional string (`None` and `""` are falsy). -/
def strTruthy : Option String → Bool
  | none => false
  | some s => !s.isEmpty

/-- The keys of the `product_info` dict built at recommendation.py lines
303-310: when the product is found in `product_features` the dict holds
exactly `product_name`, `category` and `price`; otherwise it is empty.
No branch ever inserts a `rating` key. -/
def productInfoKeys (found : Bool) : List String :=
  if found then ["product_name", "category", "price"] else []

/-- The `product_info` values (product_name, category, price) built at
recommendation.py lines 303-310; `none` when `product_features` is not
loaded or the product is absent from its index.  `product_name` is
`row.get('product_category_name', product_id)`, i.e. it falls back to
the product id. -/
def product_info_of (eng : Engine) (product_id : String) :
    Option (String × Option String × Option ℚ) :=
  match eng.product_features with
  | none => none
  | some fs =>
    match featureLookup fs product_id with
    | none => none
    | some row =>
      some (row.product_category_name.getD product_id, row.product_category_name, row.price)

/-- `_create_recommendation_item` (recommendation.py lines 292-334):
enrich, apply the category filter, apply the (dead) rating filter, clamp
the score with `min(score, 1.0)` and construct the pydantic item.  Any
raised error — including a pydantic `ValidationError` for a negative
score — is caught and yields `None`. -/
def create_recommendation_item (eng : Engine) (product_id : String) (score : ℚ)
    (categories : Option (List String)) (min_rating : Option ℚ) :
    Option RecommendationItem :=
  if listTruthy categories && strTruthy ((product_info_of eng product_id).bind (fun i => i.2.1))
      && !((categories.getD []).contains
            (((product_info_of eng product_id).bind (fun i => i.2.1)).getD "")) then
    none
  else if floatTruthy min_rating
      && (productInfoKeys (product_info_of eng product_id).isSome).contains "rating" then
    -- the dict never holds a rating key, so this branch is unreachable;
    -- in the source it would drop the item (or raise, also yielding None)
    none
  else
    mkRecommendationItem product_id
      ((product_info_of eng product_id).map (fun i => i.1))
      ((product_info_of eng product_id).bind (fun i => i.2.1))
      (min score 1)
      ((product_info_of eng product_id).bind (fun i => i.2.2))
      none
      (some eng.region)

/-! Sorting relations.  Python `sorted(key=..., reverse=True)` and pandas
`sort_values(ascending=False)` are stable descending sorts; a stable
insertion sort with a greater-or-equal relation models them. -/

/-- Descending-by-value order on (product, score) pairs. -/
def pairGe (a b : String × ℚ) : Prop := b.2 ≤ a.2

instance : DecidableRel pairGe := fun a b => inferInstanceAs (Decidable (b.2 ≤ a.2))

instance : IsTotal (String × ℚ) pairGe := ⟨fun a b => le_total b.2 a.2⟩

instance : IsTrans (String × ℚ) pairGe := ⟨fun _ _ _ h1 h2 => le_trans h2 h1⟩

/-- Descending-by-score order on recommendation items. -/
def scoreGe (a b : RecommendationItem) : Prop := b.score ≤ a.score

instance : DecidableRel scoreGe := fun a b => inferInstanceAs (Decidable (b.score ≤ a.score))

instance : IsTotal RecommendationItem scoreGe := ⟨fun a b => le_total b.score a.score⟩

instance : IsTrans RecommendationItem scoreGe := ⟨fun _ _ _ h1 h2 => le_trans h2 h1⟩

/-- Stable descending sort of (product, score) pairs: models
`sorted(product_scores.items(), key=lambda x: x[1], reverse=True)` and
`sort_values(ascending=False)`. -/
def sortPairsDesc (l : List (String × ℚ)) : List (String × ℚ) :=
  List.insertionSort pairGe l

/-- Stable descending sort of recommendation items by score: models
`sorted(all_recs, key=lambda x: x.score, reverse=True)`. -/
def sortRecsDesc (l : List RecommendationItem) : List RecommendationItem :=
  List.insertionSort scoreGe l

/-- The popularity series `user_item_matrix.sum(axis=0)`: (product,
column sum) pairs in column order. -/
def popularitySeries (m : UIMatrix) : List (String × ℚ) :=
  m.products.map (fun p => (p, m.colSum p))

/-- `series.max()` of a popularity series (pandas max over the values;
only consulted when the series is nonempty). -/
def seriesMax : List (String × ℚ) → ℚ
  | [] => 0
  | x :: xs => xs.foldl (fun acc y => max acc y.2) x.2

/-- The loop of `_get_popular_recommendations` (recommendation.py lines
277-284): walk the head of the sorted popularity series, keep every
enriched item that survives the filters, and break as soon as `count`
items are collected (the break fires after the append). -/
def popular_loop (eng : Engine) (categories : Option (List String))
    (min_rating : Option ℚ) (count : Nat) (maxScore : ℚ) :
    List (String × ℚ) → List RecommendationItem → List RecommendationItem
  | [], acc => acc
  | (pid, s) :: rest, acc =>
    match create_recommendation_item eng pid (s / maxScore) categories min_rating with
    | none => popular_loop eng categories min_rating count maxScore rest acc
    | some item =>
      if count ≤ (acc ++ [item]).length then acc ++ [item]
      else popular_loop eng categories min_rating count maxScore rest (acc ++ [item])

/-- `_get_popular_recommendations` (recommendation.py lines 261-290):
rank products by summed interaction weight, normalise by the maximum
sum, enrich/filter, return up to `count` items after over-sampling the
top `2 * count`.  With no matrix loaded it returns `[]`. -/
def get_popular_recommendations (eng : Engine) (count : Nat)
    (categories : Option (List String)) (min_rating : Option ℚ) :
    List RecommendationItem :=
  match eng.user_item_matrix with
  | none => []
  | some m =>
    let series := sortPairsDesc (popularitySeries m)
    popular_loop eng categories min_rating count (seriesMax series)
      (series.take (count * 2)) []

/-- `np.argsort(user_sim_scores)[::-1][1:21]`: the top-20 neighbour
indices after dropping the first (assumed self) entry
(recommendation.py line 211). -/
def similarUsers (simRow : List ℚ) : List Nat :=
  ((argsortDesc simRow).drop 1).take 20

/-- `product_scores[pid] += v` with implicit 0 default: an existing key
is updated in place, a new key is appended (Python dicts preserve
insertion order). -/
def addScore : List (String × ℚ) → String → ℚ → List (String × ℚ)
  | [], pid, v => [(pid, v)]
  | (q, w) :: rest, pid, v =>
    if q == pid then (q, w + v) :: rest else (q, w) :: addScore rest pid v

/-- The inner loop over one neighbour row (recommendation.py lines
227-232): accumulate `sim_score * rating` for every product the
neighbour rated, skipping products the target user already purchased. -/
def accumRow (purchased : List String) (simScore : ℚ)
    (ratings scores : List (String × ℚ)) : List (String × ℚ) :=
  ratings.foldl
    (fun acc pr =>
      if purchased.contains pr.1 then acc else addScore acc pr.1 (simScore * pr.2))
    scores

/-- The neighbour walk (recommendation.py lines 219-232): for each
similar-user index in order, break once the similarity falls below
`SIMILARITY_THRESHOLD`, otherwise fold in that neighbour's row. -/
def candidate_scores_loop (m : UIMatrix) (simRow : List ℚ) (purchased : List String) :
    List Nat → List (String × ℚ) → List (String × ℚ)
  | [], scores => scores
  | idx :: rest, scores =>
    if simRow.getD idx 0 < SIMILARITY_THRESHOLD then scores
    else
      candidate_scores_loop m simRow purchased rest
        (accumRow purchased (simRow.getD idx 0) (m.rowObserved (m.users.getD idx "")) scores)

/-- The aggregated candidate scores of the personalised path. -/
def candidate_scores (m : UIMatrix) (simRow : List ℚ) (purchased : List String) :
    List (String × ℚ) :=
  candidate_scores_loop m simRow purchased (similarUsers simRow) []

/-- Recommendation.py lines 234-242: sort the candidates by aggregated
score descending, cut to the top `count`, then enrich and filter each
survivor.  Note the cut happens before the filter. -/
def personalized_items (eng : Engine) (m : UIMatrix) (simRow : List ℚ)
    (purchased : List String) (count : Nat) (categories : Option (List String))
    (min_rating : Option ℚ) : List RecommendationItem :=
  ((sortPairsDesc (candidate_scores m simRow purchased)).take count).filterMap
    (fun ps => create_recommendation_item eng ps.1 ps.2 categories min_rating)

/-- `get_user_recommendations` (recommendation.py lines 187-259).
`models_loaded = False` raises `ValueError("Models not loaded")` before
the try block, so it propagates (`Except.error`).  A missing matrix or
similarity structure raises inside the try block, which falls back to
the popularity ranker, as does an unknown user.  Otherwise: neighbour
scoring, sort, cut to `count`, enrich/filter, pad with popular items
deduplicated against the already selected ids, and cut to `count`. -/
def get_user_recommendations (eng : Engine) (user_id : String) (count : Nat)
    (exclude_purchased : Bool) (min_rating : Option ℚ)
    (categories : Option (List String)) : Except String (List RecommendationItem) :=
  if !eng.models_loaded then .error "Models not loaded"
  else
    match eng.user_item_matrix, eng.user_similarities with
    | none, _ =>
      -- user_item_matrix is None: `user_id not in None.index` raises → popular fallback
      .ok (get_popular_recommendations eng count categories min_rating)
    | some m, none =>
      if !m.users.contains user_id then
        .ok (get_popular_recommendations eng count categories min_rating)
      else
        -- user_similarities is None: indexing raises → popular fallback
        .ok (get_popular_recommendations eng count categories min_rating)
    | some m, some sims =>
      if !m.users.contains user_id then
        .ok (get_popular_recommendations eng count categories min_rating)
      else
        let simRow := sims.getD (m.users.indexOf user_id) []
        let purchased := if exclude_purchased then m.rowProducts user_id else []
        let recs := personalized_items eng m simRow purchased count categories min_rating
        let recs2 :=
          if recs.length < count then
            recs ++ (get_popular_recommendations eng (count - recs.length) categories
                min_rating).filter
              (fun r => !(recs.map (fun x => x.product_id)).contains r.product_id)
          else recs
        .ok (recs2.take count)

/-- `get_similar_products` (recommendation.py lines 336-377).  When the
engine is not ready or the item similarities are missing it returns an
empty success, not an error.  Otherwise it takes positions `[1:count+1]`
of the descending argsort of the similarity row (dropping only the
top-ranked position as the assumed self entry).  A pydantic
`ValidationError` while building an item aborts the whole call, caught
into an empty success. -/
def get_similar_products (eng : Engine) (product_id : String) (count : Nat) :
    Except String (List SimilarProduct) :=
  if !eng.models_loaded || eng.item_similarities.isNone then .ok []
  else
    match eng.user_item_matrix, eng.item_similarities with
    | none, _ => .ok []   -- matrix is None: `.columns` raises → caught → []
    | some _, none => .ok []  -- unreachable given the guard above
    | some m, some sims =>
      if !m.products.contains product_id then .ok []
      else
        let sim_scores := sims.getD (m.products.indexOf product_id) []
        let raw := (((argsortDesc sim_scores).drop 1).take count).map (fun idx =>
          let sim_product_id := m.products.getD idx ""
          let pname := (eng.product_features.bind
            (fun fs => featureLookup fs sim_product_id)).bind
            (fun r => r.product_category_name)
          mkSimilarProduct sim_product_id pname (sim_scores.getD idx 0) pname)
        if raw.all (fun x => x.isSome) then .ok (raw.filterMap id) else .ok []

/-- The category filter of the trending loop (recommendation.py line
406): skip when the `category` argument is truthy and differs from the
product category (Python `None != "c"` is true). -/
def trending_skip (category product_category : Option String) : Bool :=
  match category with
  | none => false
  | some c => !c.isEmpty && product_category != some c

/-- Python `int()`: truncation toward zero. -/
def intTrunc (q : ℚ) : Int := if 0 ≤ q then q.floor else q.ceil

/-- The loop of `get_trending_products` (recommendation.py lines
396-423): walk the head of the sorted popularity series, skip filtered
categories, construct `TrendingProduct`s, break at `count`.  A raised
`ValidationError` aborts the whole call (`none`), which the caller turns
into an empty list. -/
def trending_loop (eng : Engine) (category : Option String) (growth : String → ℚ)
    (count : Nat) (maxScore : ℚ) :
    List (String × ℚ) → List TrendingProduct → Option (List TrendingProduct)
  | [], acc => some acc
  | (pid, icount) :: rest, acc =>
    let pname := (eng.product_features.bind (fun fs => featureLookup fs pid)).bind
      (fun r => r.product_category_name)
    if trending_skip category pname then
      trending_loop eng category growth count maxScore rest acc
    else
      match mkTrendingProduct pid pname pname (icount / maxScore) (intTrunc icount)
          (growth pid) eng.region with
      | none => none
      | some t =>
        if count ≤ (acc ++ [t]).length then some (acc ++ [t])
        else trending_loop eng category growth count maxScore rest (acc ++ [t])

/-- `get_trending_products` (recommendation.py lines 379-429).  The
readiness flag is never consulted: only `user_item_matrix is None`
short-circuits to an empty result.  `growth` models the injected
`np.random.uniform(0.1, 2.0)` growth rate.  The `time_window_hours`
argument is accepted and ignored by the source. -/
def get_trending_products (eng : Engine) (count : Nat) (category : Option String)
    (time_window_hours : Nat) (growth : String → ℚ) :
    Except String (List TrendingProduct) :=
  match eng.user_item_matrix with
  | none => .ok []
  | some m =>
    let series := sortPairsDesc (popularitySeries m)
    match trending_loop eng category growth count (seriesMax series)
        (series.take (count * 2)) [] with
    | none => .ok []
    | some l => .ok l

/-! Cross-region aggregation (`_aggregate_cross_region_results`,
recommendation.py lines 510-547).  `region_results` is a dict from
region name to result list; Python dicts iterate in insertion order, so
it is modelled as an association list. -/

/-- All items of all regions, concatenated in region-processing order. -/
def allRecsOf (region_results : List (String × List RecommendationItem)) :
    List RecommendationItem :=
  (region_results.map (fun x => x.2)).flatten

/-- The product ids of a result list. -/
def recKeys (l : List RecommendationItem) : List String :=
  l.map (fun r => r.product_id)

/-- The MERGE deduplication loop (recommendation.py lines 523-530):
keep the first occurrence of each product id. -/
def dedup_first (seen : List String) : List RecommendationItem → List RecommendationItem
  | [] => []
  | r :: rest =>
    if seen.contains r.product_id then dedup_first seen rest
    else r :: dedup_first (r.product_id :: seen) rest

/-- The MERGE branch: dedup in region order, sort by score descending,
truncate to `count`. -/
def merge_aggregate (region_results : List (String × List RecommendationItem))
    (count : Nat) : List RecommendationItem :=
  (sortRecsDesc (dedup_first [] (allRecsOf region_results))).take count

/-- `product_best[rec.product_id] = rec` guarded by
`not in product_best or rec.score > current.score`: the first matching
key is updated in place (keeping its insertion position), a new key is
appended. -/
def best_insert : List (String × RecommendationItem) → RecommendationItem →
    List (String × RecommendationItem)
  | [], r => [(r.product_id, r)]
  | (pid, cur) :: rest, r =>
    if pid == r.product_id then
      if cur.score < r.score then (pid, r) :: rest else (pid, cur) :: rest
    else (pid, cur) :: best_insert rest r

/-- The HIGHEST_SCORE branch: keep the best-scoring instance of every
product id, sort by score descending, truncate to `count`. -/
def highest_aggregate (region_results : List (String × List RecommendationItem))
    (count : Nat) : List RecommendationItem :=
  (sortRecsDesc (((allRecsOf region_results).foldl best_insert []).map
    (fun x => x.2))).take count

/-- `_aggregate_cross_region_results` (recommendation.py lines 510-547):
empty input yields `[]`; MERGE and HIGHEST_SCORE as above; any other
method recurses with MERGE (modelled by the same MERGE computation). -/
def aggregate_cross_region_results
    (region_results : List (String × List RecommendationItem)) (count : Nat)
    (method : AggregationMethod) : List RecommendationItem :=
  if region_results.isEmpty then []
  else
    match method with
    | .merge => merge_aggregate region_results count
    | .highest_score => highest_aggregate region_results count
    | _ => merge_aggregate region_results count

/-! Model lifecycle (`load_models`, recommendation.py lines 47-185 and
575-584).  The object store is modelled by what each download yields:
`download_dataframe` and `download_model` catch their own errors and
return `None` (here `none`); the subsequent `set_index` on a downloaded
dataframe can raise, so the dataframe downloads are `Except` of an
`Option`.  The numeric fitting (`TruncatedSVD`, `cosine_similarity`) is
an external library, abstracted as a deterministic `Trainer` operator
(the source fixes `random_state=42`). -/

/-- The observable behaviour of the MinIO-backed store for one engine
region: what each load step yields. -/
structure Store where
  user_item_data : Except String (Option UIMatrix)
  products_data : Except String (Option Features)
  bucket_exists : Bool
  svd_data : Option SvdModel
  user_sim_data : Option SimMatrix
  item_sim_data : Option SimMatrix

/-- The external training operators: the constructed (unfitted)
`TruncatedSVD` estimator, the fit step (which can raise, e.g. when
`n_components` exceeds the feature count), and the two cosine-similarity
computations. -/
structure Trainer where
  init_svd : SvdModel
  fit_svd : UIMatrix → Except String SvdModel
  user_sims_of : UIMatrix → SvdModel → SimMatrix
  item_sims_of : SvdModel → SimMatrix

/-- `_load_processed_data` (lines 72-95): download the matrix and the
feature table, assigning each field only when the download returned
data; a raised error propagates, keeping the assignments already made. -/
def load_processed_data (store : Store) (eng : Engine) : Engine × Option String :=
  match store.user_item_data with
  | .error e => (eng, some e)
  | .ok odata =>
    let eng1 := match odata with
      | some m => { eng with user_item_matrix := some m }
      | none => eng
    match store.products_data with
    | .error e => (eng1, some e)
    | .ok odata2 =>
      match odata2 with
      | some fs => ({ eng1 with product_features := some fs }, none)
      | none => (eng1, none)

/-- Python `if x:` applied to an unpickled numpy array (lines 112 and
117): `None` is falsy, a one-element array has the truthiness of its
element, and an array with more than one element raises
`ValueError("The truth value of an array ... is ambiguous")`. -/
def npTruthy : Option SimMatrix → Except String Bool
  | none => .ok false
  | some s =>
    if simSize s == 0 then .ok false
    else if simSize s == 1 then .ok (((s.getD 0 []).getD 0 0) != 0)
    else .error "truth value of a multi-element array is ambiguous"

/-- `_load_existing_models` (lines 97-127): try to adopt the persisted
artifacts; any raised error is caught and reported as `False`, keeping
the assignments already made.  The sklearn estimator object is always
truthy, so `if svd_data:` assigns whenever the download succeeded; the
similarity arrays go through numpy truthiness, which raises for any
matrix with more than one element. -/
def load_existing_models (store : Store) (eng : Engine) : Engine × Bool :=
  if !store.bucket_exists then (eng, false)
  else
    let eng1 := if store.svd_data.isSome then { eng with svd_model := store.svd_data } else eng
    match npTruthy store.user_sim_data with
    | .error _ => (eng1, false)
    | .ok usTruthy =>
      let eng2 :=
        if usTruthy then { eng1 with user_similarities := store.user_sim_data } else eng1
      match npTruthy store.item_sim_data with
      | .error _ => (eng2, false)
      | .ok isTruthy =>
        let eng3 :=
          if isTruthy then { eng2 with item_similarities := store.item_sim_data } else eng2
        (eng3, eng3.svd_model.isSome && eng3.user_similarities.isSome &&
          eng3.item_similarities.isSome)

/-- `_train_models` (lines 129-160): raise when no matrix is loaded;
otherwise assign the constructed estimator, fit it (a raised fit error
propagates, keeping the unfitted estimator assigned), then derive both
similarity matrices. -/
def train_models (tr : Trainer) (eng : Engine) : Engine × Option String :=
  match eng.user_item_matrix with
  | none => (eng, some "User-item matrix not loaded")
  | some m =>
    let eng1 := { eng with svd_model := some tr.init_svd }
    match tr.fit_svd m with
    | .error e => (eng1, some e)
    | .ok svd =>
      ({ eng1 with
          svd_model := some svd
          user_similarities := some (tr.user_sims_of m svd)
          item_similarities := some (tr.item_sims_of svd) }, none)

/-- `_save_models` (lines 162-185): create the bucket and upload each
present artifact.  The MinIO wrapper catches every upload error, so this
step never raises; it only changes what later downloads will see. -/
def save_models (eng : Engine) (store : Store) : Store :=
  { store with
    bucket_exists := true
    svd_data := if eng.svd_model.isSome then eng.svd_model else store.svd_data
    user_sim_data :=
      if eng.user_similarities.isSome then eng.user_similarities else store.user_sim_data
    item_sim_data :=
      if eng.item_similarities.isSome then eng.item_similarities else store.item_sim_data }

/-- The outcome of one `load_models` call: the engine state afterwards,
the store afterwards, the propagated error if any, and whether
`_train_models` was invoked. -/
structure LoadResult where
  engine : Engine
  store : Store
  err : Option String
  did_train : Bool

/-- `load_models` (lines 47-70): load processed data, try to adopt
persisted models, otherwise train and persist; only on full success set
`models_loaded` and `last_model_update` (`now` stands for
`datetime.utcnow()`).  A raised error propagates after logging, with
every field assignment made before the failure kept in place. -/
def load_models (tr : Trainer) (store : Store) (eng : Engine) (now : Nat) : LoadResult :=
  match load_processed_data store eng with
  | (eng1, some e) => ⟨eng1, store, some e, false⟩
  | (eng1, none) =>
    match load_existing_models store eng1 with
    | (eng2, true) =>
      ⟨{ eng2 with models_loaded := true, last_model_update := some now },
        store, none, false⟩
    | (eng2, false) =>
      match train_models tr eng2 with
      | (eng3, some e) => ⟨eng3, store, some e, true⟩
      | (eng3, none) =>
        ⟨{ eng3 with models_loaded := true, last_model_update := some now },
          save_models eng3 store, none, true⟩

/-- `refresh_models` (lines 575-584): logs, delegates to `load_models`,
and re-raises any error; its state effects are exactly those of
`load_models`. -/
def refresh_models (tr : Trainer) (store : Store) (eng : Engine) (now : Nat) : LoadResult :=
  load_models tr store eng now

/-! General lemmas about the item constructors and loops, shared by the
claim theorems below. -/

theorem mkRecommendationItem_eq_some {pid : String} {pn cat : Option String} {sc : ℚ}
    {pr ra : Option ℚ} {re : Option String} {r : RecommendationItem}
    (h : mkRecommendationItem pid pn cat sc pr ra re = some r) :
    r = ⟨pid, pn, cat, sc, pr, ra, re⟩ ∧ 0 ≤ sc ∧ sc ≤ 1 := by
  unfold mkRecommendationItem at h
  split at h
  case isTrue hc =>
    simp only [Bool.and_eq_true, decide_eq_true_eq] at hc
    cases h
    exact ⟨rfl, hc.1.1, hc.1.2⟩
  case isFalse => cases h

theorem create_recommendation_item_eq_some {eng : Engine} {pid : String} {sc : ℚ}
    {cats : Option (List String)} {mr : Option ℚ} {r : RecommendationItem}
    (h : create_recommendation_item eng pid sc cats mr = some r) :
    r.product_id = pid ∧ 0 ≤ r.score ∧ r.score ≤ 1 := by
  unfold create_recommendation_item at h
  split at h
  · cases h
  · split at h
    · cases h
    · obtain ⟨he, h0, h1⟩ := mkRecommendationItem_eq_some h
      subst he
      exact ⟨rfl, h0, h1⟩

theorem popular_loop_bounds (eng : Engine) (cats : Option (List String)) (mr : Option ℚ)
    (count : Nat) (maxS : ℚ) :
    ∀ (l : List (String × ℚ)) (acc : List RecommendationItem),
      (∀ r ∈ acc, 0 ≤ r.score ∧ r.score ≤ 1) →
      ∀ r ∈ popular_loop eng cats mr count maxS l acc, 0 ≤ r.score ∧ r.score ≤ 1 := by
  intro l
  induction l with
  | nil =>
    intro acc hacc r hr
    rw [popular_loop] at hr
    exact hacc r hr
  | cons hd tl ih =>
    obtain ⟨pid, s⟩ := hd
    intro acc hacc r hr
    rw [popular_loop] at hr
    split at hr
    · exact ih acc hacc r hr
    case h_2 item heq =>
      have hitem : 0 ≤ item.score ∧ item.score ≤ 1 :=
        (create_recommendation_item_eq_some heq).2
      have hacc2 : ∀ x ∈ acc ++ [item], 0 ≤ x.score ∧ x.score ≤ 1 := by
        intro x hx
        rcases List.mem_append.mp hx with hx | hx
        · exact hacc x hx
        · rcases List.mem_singleton.mp hx with rfl
          exact hitem
      split at hr
      · exact hacc2 r hr
      · exact ih (acc ++ [item]) hacc2 r hr

theorem get_popular_recommendations_bounds (eng : Engine) (count : Nat)
    (cats : Option (List String)) (mr : Option ℚ) :
    ∀ r ∈ get_popular_recommendations eng count cats mr, 0 ≤ r.score ∧ r.score ≤ 1 := by
  intro r hr
  unfold get_popular_recommendations at hr
  split at hr
  · cases hr
  · exact popular_loop_bounds eng cats mr count _ _ [] (by intro x hx; cases hx) r hr

/-! Key-tracking lemmas for the candidate accumulation of the
personalised path: every accumulated product id avoids the purchased
set. -/

theorem addScore_key_mem {l : List (String × ℚ)} {pid : String} {v : ℚ} {p : String}
    (hp : p ∈ (addScore l pid v).map (fun x => x.1)) :
    p ∈ l.map (fun x => x.1) ∨ p = pid := by
  induction l with
  | nil =>
    simp only [addScore, List.map_cons, List.map_nil, List.mem_singleton] at hp
    exact Or.inr hp
  | cons hd tl ih =>
    obtain ⟨q, w⟩ := hd
    rw [addScore] at hp
    split at hp
    · simp only [List.map_cons, List.mem_cons] at hp ⊢
      exact Or.inl hp
    · simp only [List.map_cons, List.mem_cons] at hp ⊢
      rcases hp with hp | hp
      · exact Or.inl (Or.inl hp)
      · rcases ih hp with h | h
        · exact Or.inl (Or.inr h)
        · exact Or.inr h

theorem accumRow_key_mem {purchased : List String} {simScore : ℚ} :
    ∀ {ratings scores : List (String × ℚ)} {p : String},
      p ∈ (accumRow purchased simScore ratings scores).map (fun x => x.1) →
      p ∈ scores.map (fun x => x.1) ∨ p ∉ purchased := by
  intro ratings
  induction ratings with
  | nil => intro scores p hp; exact Or.inl hp
  | cons pr rest ih =>
    intro scores p hp
    unfold accumRow at hp ih
    rw [List.foldl_cons] at hp
    rcases ih hp with h | h
    · by_cases hc : purchased.contains pr.1
      · rw [if_pos hc] at h
        exact Or.inl h
      · rw [if_neg hc] at h
        rcases addScore_key_mem h with h2 | h2
        · exact Or.inl h2
        · subst h2
          exact Or.inr (by simpa using hc)
    · exact Or.inr h

theorem candidate_scores_loop_key {m : UIMatrix} {simRow : List ℚ} {purchased : List String} :
    ∀ {idxs : List Nat} {scores : List (String × ℚ)} {p : String},
      p ∈ (candidate_scores_loop m simRow purchased idxs scores).map (fun x => x.1) →
      p ∈ scores.map (fun x => x.1) ∨ p ∉ purchased := by
  intro idxs
  induction idxs with
  | nil => intro scores p hp; exact Or.inl hp
  | cons idx rest ih =>
    intro scores p hp
    rw [candidate_scores_loop] at hp
    split at hp
    · exact Or.inl hp
    · rcases ih hp with h | h
      · exact accumRow_key_mem h
      · exact Or.inr h

theorem candidate_scores_key {m : UIMatrix} {simRow : List ℚ} {purchased : List String}
    {p : String} (hp : p ∈ (candidate_scores m simRow purchased).map (fun x => x.1)) :
    p ∉ purchased := by
  rcases candidate_scores_loop_key hp with h | h
  · cases h
  · exact h

/-- Claim C1 (amended): with `exclude_purchased` set, the personalised
portion of `get_user_recommendations` — the enriched top-`count`
candidates accumulated from similar users — never contains a product of
the target user's own interaction row.  (The popularity-padding step is
only deduplicated against already-selected ids and can re-introduce
purchased products; see the counterexample.) -/
theorem c1_personalized_excludes_purchased (eng : Engine) (m : UIMatrix)
    (simRow : List ℚ) (count : Nat) (cats : Option (List String)) (mr : Option ℚ)
    (user_id : String) (r : RecommendationItem)
    (hr : r ∈ personalized_items eng m simRow (m.rowProducts user_id) count cats mr) :
    r.product_id ∉ m.rowProducts user_id := by
  obtain ⟨a, ha, hc⟩ := List.mem_filterMap.mp hr
  obtain ⟨hid, -, -⟩ := create_recommendation_item_eq_some hc
  have ha2 : a ∈ sortPairsDesc (candidate_scores m simRow (m.rowProducts user_id)) :=
    (List.take_sublist _ _).subset ha
  have ha3 : a ∈ candidate_scores m simRow (m.rowProducts user_id) :=
    (List.perm_insertionSort pairGe _).subset ha2
  have hkey : a.1 ∈ (candidate_scores m simRow (m.rowProducts user_id)).map
      (fun x => x.1) := List.mem_map_of_mem _ ha3
  rw [hid]
  exact candidate_scores_key hkey

/-- Interaction matrix of the C1 counterexample: both users interacted
with the single product X. -/
def mC1 : UIMatrix := ⟨["u", "v"], ["X"], [("u", "X", 5), ("v", "X", 4)]⟩

/-- Ready engine for the C1 counterexample: the only neighbour of `u`
has similarity 1/20, below the 1/10 threshold, so the personalised
portion is empty and the result is entirely popularity padding. -/
def engC1 : Engine :=
  ⟨"us-east", some mC1, none, some [[1, 1/20], [1/20, 1]], none, none, true, none⟩

/-- Claim C1 counterexample: with `exclude_purchased = true`, the call
returns product X with score 1 via the popularity-padding step although
X lies in the interaction row of user u — the padding does not exclude
purchased products. -/
theorem c1_counterexample :
    get_user_recommendations engC1 "u" 1 true none none =
      .ok [⟨"X", none, none, 1, none, none, some "us-east"⟩] ∧
    "X" ∈ mC1.rowProducts "u" := by
  constructor
  · with_unfolding_all rfl
  · with_unfolding_all decide

/-- Interaction matrix of the C1 witness: `u` purchased X, neighbour `v`
purchased X and Y. -/
def mC1w : UIMatrix :=
  ⟨["u", "v"], ["X", "Y"], [("u", "X", 5), ("v", "X", 4), ("v", "Y", 3)]⟩

/-- Ready engine for the C1 witness: `v` is a usable neighbour of `u`
(similarity 1/2 ≥ threshold). -/
def engC1w : Engine :=
  ⟨"us-east", some mC1w, none, some [[1, 1/2], [1/2, 1]], none, none, true, none⟩

/-- Witness for `c1_personalized_excludes_purchased` at a concrete
engine whose personalised portion is nonempty. -/
theorem c1_witness :
    ((⟨"Y", none, none, 1, none, none, some "us-east"⟩ : RecommendationItem) ∈
      personalized_items engC1w mC1w [1, 1/2] (mC1w.rowProducts "u") 1 none none) ∧
    (⟨"Y", none, none, 1, none, none, some "us-east"⟩ :
      RecommendationItem).product_id ∉ mC1w.rowProducts "u" :=
  ⟨by with_unfolding_all decide,
   c1_personalized_excludes_purchased engC1w mC1w [1, 1/2] 1 none none "u" _
     (by with_unfolding_all decide)⟩

/-- Claim C8 (amended): before model loading completes, only
`get_user_recommendations` fails fast with the not-ready error;
`get_similar_products` returns an empty successful result, and
`get_trending_products` never consults the readiness flag at all — it
returns a successful (possibly non-empty) list whenever the matrix is
present, and an empty success otherwise. -/
theorem c8_not_ready_behavior (eng : Engine) (user_id product_id : String)
    (count twh : Nat) (ex : Bool) (mr : Option ℚ) (cats : Option (List String))
    (cat : Option String) (growth : String → ℚ)
    (h : eng.models_loaded = false) :
    get_user_recommendations eng user_id count ex mr cats = .error "Models not loaded" ∧
    get_similar_products eng product_id count = .ok [] ∧
    (eng.user_item_matrix = none → get_trending_products eng count cat twh growth = .ok []) ∧
    ∃ l, get_trending_products eng count cat twh growth = .ok l := by
  refine ⟨?_, ?_, ?_, ?_⟩
  · unfold get_user_recommendations
    rw [h]
    rfl
  · unfold get_similar_products
    rw [h]
    rfl
  · intro hm
    unfold get_trending_products
    rw [hm]
  · unfold get_trending_products
    split
    · exact ⟨[], rfl⟩
    · dsimp only
      split
      · exact ⟨[], rfl⟩
      · exact ⟨_, rfl⟩

/-- Interaction matrix of the C8 counterexample. -/
def mC8 : UIMatrix := ⟨["u"], ["A"], [("u", "A", 3)]⟩

/-- Engine whose background load has not completed
(`models_loaded = False`) but whose matrix is already assigned, as
happens while `_load_processed_data` has run and training has not
finished. -/
def engC8 : Engine := ⟨"r8", some mC8, none, none, some [[1]], none, false, none⟩

/-- Claim C8 counterexample: on a not-ready engine,
`get_similar_products` returns an empty success instead of a not-ready
error, and `get_trending_products` even returns a non-empty successful
result. -/
theorem c8_counterexample :
    engC8.models_loaded = false ∧
    get_similar_products engC8 "A" 1 = .ok [] ∧
    get_trending_products engC8 1 none 24 (fun _ => 1/2) =
      .ok [⟨"A", none, none, 1, 3, 1/2, "r8"⟩] :=
  ⟨rfl, by with_unfolding_all rfl, by with_unfolding_all rfl⟩

/-- Witness for `c8_not_ready_behavior` at the concrete not-ready
engine. -/
theorem c8_witness :
    engC8.models_loaded = false ∧
    (get_user_recommendations engC8 "u" 1 true none none = .error "Models not loaded" ∧
     get_similar_products engC8 "B" 2 = .ok [] ∧
     (engC8.user_item_matrix = none →
       get_trending_products engC8 2 none 24 (fun _ => 1) = .ok []) ∧
     ∃ l, get_trending_products engC8 2 none 24 (fun _ => 1) = .ok l) :=
  ⟨rfl, c8_not_ready_behavior engC8 "u" "B" 2 24 true none none none (fun _ => 1) rfl⟩

/-! Preservation lemmas for the model-lifecycle functions: none of the
failure paths of the load sequence touches `models_loaded` or
`last_model_update`. -/

theorem load_processed_data_pres (store : Store) (eng : Engine) :
    ((load_processed_data store eng).1).models_loaded = eng.models_loaded ∧
    ((load_processed_data store eng).1).last_model_update = eng.last_model_update := by
  unfold load_processed_data
  dsimp only
  repeat' split
  all_goals exact ⟨rfl, rfl⟩

theorem load_existing_models_pres (store : Store) (eng : Engine) :
    ((load_existing_models store eng).1).models_loaded = eng.models_loaded ∧
    ((load_existing_models store eng).1).last_model_update = eng.last_model_update := by
  unfold load_existing_models
  dsimp only
  repeat' split
  all_goals exact ⟨rfl, rfl⟩

theorem train_models_pres (tr : Trainer) (eng : Engine) :
    ((train_models tr eng).1).models_loaded = eng.models_loaded ∧
    ((train_models tr eng).1).last_model_update = eng.last_model_update := by
  unfold train_models
  dsimp only
  repeat' split
  all_goals exact ⟨rfl, rfl⟩

/-- Claim C2 (amended): when `refresh_models` fails, the error is
propagated and the readiness state of the previous snapshot survives —
`models_loaded` and `last_model_update` are unchanged, so a previously
ready engine stays marked ready.  The data artifacts themselves are NOT
protected: fields assigned before the failing step keep their new
values, leaving a mixture of old and new state (see the
counterexample). -/
theorem c2_refresh_failure_keeps_ready_state (tr : Trainer) (store : Store)
    (eng : Engine) (now : Nat) (e : String)
    (h : (refresh_models tr store eng now).err = some e) :
    (refresh_models tr store eng now).engine.models_loaded = eng.models_loaded ∧
    (refresh_models tr store eng now).engine.last_model_update = eng.last_model_update := by
  unfold refresh_models load_models at h ⊢
  rcases h1 : load_processed_data store eng with ⟨eng1, oe⟩
  have hp1 := load_processed_data_pres store eng
  rw [h1] at hp1 h
  rcases oe with _ | e1
  · dsimp only at h ⊢
    rcases h2 : load_existing_models store eng1 with ⟨eng2, b⟩
    have hp2 := load_existing_models_pres store eng1
    rw [h2] at hp2 h
    rcases b with _ | _
    · dsimp only at h ⊢
      rcases h3 : train_models tr eng2 with ⟨eng3, oe3⟩
      have hp3 := train_models_pres tr eng2
      rw [h3] at hp3 h
      rcases oe3 with _ | e3
      · exact Option.noConfusion h
      · exact ⟨hp3.1.trans (hp2.1.trans hp1.1), hp3.2.trans (hp2.2.trans hp1.2)⟩
    · exact Option.noConfusion h
  · exact hp1

/-- Old (active) interaction matrix of the C2 scenario. -/
def mOld : UIMatrix := ⟨["a"], ["X"], [("a", "X", 1)]⟩

/-- New interaction matrix that the failing refresh partially installs. -/
def mNew : UIMatrix := ⟨["a", "b"], ["X"], [("a", "X", 1), ("b", "X", 2)]⟩

/-- Fully loaded engine before the failing refresh. -/
def engC2 : Engine :=
  ⟨"eu", some mOld, some ⟨1, [[1]], true⟩, some [[1]], some [[1]], some [], true, some 5⟩

/-- Store for the C2 counterexample: the matrix download succeeds with
new data, then the feature download raises. -/
def storeC2 : Store := ⟨.ok (some mNew), .error "download failed", true, none, none, none⟩

/-- Trainer for the C2 scenario (a concrete deterministic stand-in for
the external SVD and cosine operators). -/
def trC2 : Trainer :=
  ⟨⟨50, [], false⟩, fun _ => .ok ⟨1, [[1]], true⟩, fun _ _ => [[1]], fun _ => [[1]]⟩

/-- Claim C2 counterexample: a refresh that fails mid-way reports the
error but leaves the engine holding the NEW user-item matrix next to
the OLD model artifacts — the previously active snapshot is not left
unchanged, and the engine holds a mixture of old and new. -/
theorem c2_counterexample :
    (refresh_models trC2 storeC2 engC2 9).err = some "download failed" ∧
    (refresh_models trC2 storeC2 engC2 9).engine.user_item_matrix ≠
      engC2.user_item_matrix ∧
    (refresh_models trC2 storeC2 engC2 9).engine.svd_model = engC2.svd_model ∧
    (refresh_models trC2 storeC2 engC2 9).engine ≠ engC2 :=
  ⟨by with_unfolding_all rfl, by with_unfolding_all decide,
   by with_unfolding_all rfl, by with_unfolding_all decide⟩

/-- Witness for `c2_refresh_failure_keeps_ready_state` at the concrete
failing refresh. -/
theorem c2_witness :
    (refresh_models trC2 storeC2 engC2 9).err = some "download failed" ∧
    ((refresh_models trC2 storeC2 engC2 9).engine.models_loaded = engC2.models_loaded ∧
     (refresh_models trC2 storeC2 engC2 9).engine.last_model_update =
       engC2.last_model_update) :=
  ⟨by with_unfolding_all rfl,
   c2_refresh_failure_keeps_ready_state trC2 storeC2 engC2 9 "download failed"
     (by with_unfolding_all rfl)⟩

/-- Interaction matrix of the C9 scenario. -/
def mC9 : UIMatrix := ⟨["u", "v"], ["A", "B"], [("u", "A", 5), ("v", "B", 3)]⟩

/-- Fresh engine before its first `load_models` call. -/
def eng0C9 : Engine := ⟨"r9", none, none, none, none, none, false, none⟩

/-- Store for the C9 scenario: the models bucket exists and all three
persisted artifacts (SVD model and both similarity matrices, each with
more than one element, as any real deployment has) download
successfully and are unchanged between calls. -/
def storeC9 : Store :=
  ⟨.ok (some mC9), .ok none, true, some ⟨2, [[1, 0], [0, 1]], true⟩,
   some [[1, 1/2], [1/2, 1]], some [[1, 0], [0, 1]]⟩

/-- Trainer for the C9 scenario; it produces two-by-two similarity
matrices, as the real cosine computation does for two users/products. -/
def trC9 : Trainer :=
  ⟨⟨50, [], false⟩, fun _ => .ok ⟨2, [[1, 1], [1, 1]], true⟩,
   fun _ _ => [[1, 1], [1, 1]], fun _ => [[1, 1], [1, 1]]⟩

/-- Claim C9, evaluation at the failing input: although the store holds
all three unchanged persisted artifacts, `_load_existing_models`
reports failure — the Python truthiness test `if user_sim_data:` on a
multi-element numpy array raises `ValueError`, which is caught into
`return False` — so `load_models` retrains (and re-persists) on BOTH
calls instead of adopting the persisted artifacts without retraining. -/
theorem c9_retrains_despite_unchanged_artifacts :
    (load_existing_models storeC9 eng0C9).2 = false ∧
    (load_models trC9 storeC9 eng0C9 1).err = none ∧
    (load_models trC9 storeC9 eng0C9 1).did_train = true ∧
    (load_models trC9 (load_models trC9 storeC9 eng0C9 1).store
      (load_models trC9 storeC9 eng0C9 1).engine 2).did_train = true :=
  ⟨by with_unfolding_all rfl, by with_unfolding_all rfl,
   by with_unfolding_all rfl, by with_unfolding_all rfl⟩

/-! Claim C10: `min_rating` never influences any output.  The rating
filter at recommendation.py lines 317-320 is guarded by
`'rating' in product_info`, and the `product_info` dict never holds a
rating key. -/

theorem create_recommendation_item_min_rating_irrel (eng : Engine) (pid : String)
    (sc : ℚ) (cats : Option (List String)) (r1 r2 : Option ℚ) :
    create_recommendation_item eng pid sc cats r1 =
    create_recommendation_item eng pid sc cats r2 := by
  unfold create_recommendation_item
  have hkeys : ∀ b : Bool, (productInfoKeys b).contains "rating" = false := by
    intro b
    cases b <;> rfl
  rw [hkeys]
  simp only [Bool.and_false, Bool.false_eq_true, if_false]

theorem popular_loop_min_rating_irrel (eng : Engine) (cats : Option (List String))
    (count : Nat) (maxS : ℚ) (r1 r2 : Option ℚ) :
    ∀ (l : List (String × ℚ)) (acc : List RecommendationItem),
      popular_loop eng cats r1 count maxS l acc =
      popular_loop eng cats r2 count maxS l acc := by
  intro l
  induction l with
  | nil => intro acc; rw [popular_loop, popular_loop]
  | cons hd tl ih =>
    intro acc
    obtain ⟨pid, s⟩ := hd
    rw [popular_loop, popular_loop,
      create_recommendation_item_min_rating_irrel eng pid (s / maxS) cats r1 r2]
    cases create_recommendation_item eng pid (s / maxS) cats r2 with
    | none => exact ih acc
    | some item =>
      dsimp only
      split
      · rfl
      · exact ih (acc ++ [item])

theorem get_popular_recommendations_min_rating_irrel (eng : Engine)
    (cats : Option (List String)) (r1 r2 : Option ℚ) :
    ∀ count, get_popular_recommendations eng count cats r1 =
      get_popular_recommendations eng count cats r2 := by
  intro count
  unfold get_popular_recommendations
  split
  · rfl
  · exact popular_loop_min_rating_irrel eng cats count _ r1 r2 _ _

theorem personalized_items_min_rating_irrel (eng : Engine)
    (cats : Option (List String)) (r1 r2 : Option ℚ) :
    ∀ (m : UIMatrix) (simRow : List ℚ) (purchased : List String) (count : Nat),
      personalized_items eng m simRow purchased count cats r1 =
      personalized_items eng m simRow purchased count cats r2 := by
  intro m simRow purchased count
  unfold personalized_items
  exact List.filterMap_congr
    (fun ps _ => create_recommendation_item_min_rating_irrel eng ps.1 ps.2 cats r1 r2)

/-- Claim C10: for any two values of `min_rating`, item construction,
the popularity ranker and `get_user_recommendations` produce identical
results — the rating filter can never drop a candidate because the
enrichment record contains only product_name, category and price and
never a rating key. -/
theorem c10_min_rating_independence (eng : Engine) (user_id : String) (count : Nat)
    (ex : Bool) (cats : Option (List String)) (pid : String) (sc : ℚ)
    (r1 r2 : Option ℚ) :
    create_recommendation_item eng pid sc cats r1 =
      create_recommendation_item eng pid sc cats r2 ∧
    get_popular_recommendations eng count cats r1 =
      get_popular_recommendations eng count cats r2 ∧
    get_user_recommendations eng user_id count ex r1 cats =
      get_user_recommendations eng user_id count ex r2 cats := by
  refine ⟨create_recommendation_item_min_rating_irrel eng pid sc cats r1 r2,
    get_popular_recommendations_min_rating_irrel eng cats r1 r2 count, ?_⟩
  unfold get_user_recommendations
  simp only [personalized_items_min_rating_irrel eng cats r1 r2,
    get_popular_recommendations_min_rating_irrel eng cats r1 r2]

/-! Claim C4: range invariants of every returned item.  The pydantic
validators reject out-of-range values, and a rejected construction is
either skipped (`_create_recommendation_item` catches into `None`) or
aborts the whole call into an empty result, so everything actually
returned respects the bounds. -/

theorem mkSimilarProduct_eq_some {pid : String} {pn : Option String} {s : ℚ}
    {cat : Option String} {sp : SimilarProduct}
    (h : mkSimilarProduct pid pn s cat = some sp) :
    sp.product_id = pid ∧ 0 ≤ sp.similarity_score ∧ sp.similarity_score ≤ 1 := by
  unfold mkSimilarProduct at h
  split at h
  case isTrue hc =>
    simp only [Bool.and_eq_true, decide_eq_true_eq] at hc
    cases h
    exact ⟨rfl, hc.1, hc.2⟩
  case isFalse => cases h

theorem mkTrendingProduct_eq_some {pid : String} {pn cat : Option String} {ts : ℚ}
    {ic : Int} {gr : ℚ} {re : String} {t : TrendingProduct}
    (h : mkTrendingProduct pid pn cat ts ic gr re = some t) :
    t.product_id = pid ∧ 0 ≤ t.trend_score := by
  unfold mkTrendingProduct at h
  split at h
  case isTrue hc =>
    simp only [Bool.and_eq_true, decide_eq_true_eq] at hc
    cases h
    exact ⟨rfl, hc.1⟩
  case isFalse => cases h

theorem personalized_items_bounds {eng : Engine} {m : UIMatrix} {simRow : List ℚ}
    {purchased : List String} {count : Nat} {cats : Option (List String)}
    {mr : Option ℚ} :
    ∀ r ∈ personalized_items eng m simRow purchased count cats mr,
      0 ≤ r.score ∧ r.score ≤ 1 := by
  intro r hr
  obtain ⟨a, _, hc⟩ := List.mem_filterMap.mp hr
  exact (create_recommendation_item_eq_some hc).2

theorem get_user_recommendations_bounds {eng : Engine} {user_id : String}
    {count : Nat} {ex : Bool} {mr : Option ℚ} {cats : Option (List String)}
    {lu : List RecommendationItem}
    (h : get_user_recommendations eng user_id count ex mr cats = .ok lu) :
    ∀ r ∈ lu, 0 ≤ r.score ∧ r.score ≤ 1 := by
  unfold get_user_recommendations at h
  split at h
  · cases h
  · split at h
    · cases h
      exact get_popular_recommendations_bounds eng count cats mr
    · split at h
      · cases h
        exact get_popular_recommendations_bounds eng count cats mr
      · cases h
        exact get_popular_recommendations_bounds eng count cats mr
    · split at h
      · cases h
        exact get_popular_recommendations_bounds eng count cats mr
      · dsimp only at h
        cases h
        intro r hr
        have hr2 := (List.take_sublist count _).subset hr
        split at hr2 <;> split at hr2
        all_goals try exact personalized_items_bounds r hr2
        all_goals
          rcases List.mem_append.mp hr2 with h3 | h3
          · exact personalized_items_bounds r h3
          · exact get_popular_recommendations_bounds eng _ cats mr r
              (List.mem_of_mem_filter h3)

theorem get_similar_products_bounds {eng : Engine} {pid : String} {count : Nat}
    {ls : List SimilarProduct}
    (h : get_similar_products eng pid count = .ok ls) :
    ∀ s ∈ ls, 0 ≤ s.similarity_score ∧ s.similarity_score ≤ 1 := by
  unfold get_similar_products at h
  split at h
  · cases h
    intro s hs
    cases hs
  · split at h
    · cases h
      intro s hs
      cases hs
    · cases h
      intro s hs
      cases hs
    · split at h
      · cases h
        intro s hs
        cases hs
      · dsimp only at h
        split at h
        · cases h
          intro s hs
          obtain ⟨o, ho, heq⟩ := List.mem_filterMap.mp hs
          rw [id_eq] at heq
          subst heq
          obtain ⟨idx, -, hidx⟩ := List.mem_map.mp ho
          exact (mkSimilarProduct_eq_some hidx).2
        · cases h
          intro s hs
          cases hs

theorem trending_loop_bounds (eng : Engine) (cat : Option String)
    (growth : String → ℚ) (count : Nat) (maxS : ℚ) :
    ∀ (l : List (String × ℚ)) (acc out : List TrendingProduct),
      (∀ t ∈ acc, 0 ≤ t.trend_score) →
      trending_loop eng cat growth count maxS l acc = some out →
      ∀ t ∈ out, 0 ≤ t.trend_score := by
  intro l
  induction l with
  | nil =>
    intro acc out hacc h
    rw [trending_loop] at h
    cases h
    exact hacc
  | cons hd tl ih =>
    obtain ⟨pid, s⟩ := hd
    intro acc out hacc h
    rw [trending_loop] at h
    split at h
    · exact ih acc out hacc h
    · split at h
      · cases h
      case h_2 t heq =>
        have ht : 0 ≤ t.trend_score := (mkTrendingProduct_eq_some heq).2
        have hacc2 : ∀ x ∈ acc ++ [t], 0 ≤ x.trend_score := by
          intro x hx
          rcases List.mem_append.mp hx with hx | hx
          · exact hacc x hx
          · rcases List.mem_singleton.mp hx with rfl
            exact ht
        split at h
        · cases h
          exact hacc2
        · exact ih (acc ++ [t]) out hacc2 h

theorem get_trending_products_bounds {eng : Engine} {count : Nat}
    {cat : Option String} {twh : Nat} {growth : String → ℚ}
    {lt : List TrendingProduct}
    (h : get_trending_products eng count cat twh growth = .ok lt) :
    ∀ t ∈ lt, 0 ≤ t.trend_score := by
  unfold get_trending_products at h
  split at h
  · cases h
    intro t ht
    cases ht
  · dsimp only at h
    split at h
    · cases h
      intro t ht
      cases ht
    · rename_i l2 heq
      cases h
      exact trending_loop_bounds eng cat growth count _ _ [] _ (by intro x hx; cases hx) heq

/-- Claim C4: every RecommendationItem actually returned by
`get_user_recommendations` or by the popularity ranker has its score in
[0, 1]; every returned SimilarProduct has its similarity score in
[0, 1]; every returned TrendingProduct has a nonnegative trend score. -/
theorem c4_score_bounds (eng : Engine) (user_id product_id : String)
    (count twh : Nat) (ex : Bool) (mr : Option ℚ) (cats : Option (List String))
    (cat : Option String) (growth : String → ℚ)
    (lu : List RecommendationItem) (ls : List SimilarProduct)
    (lt : List TrendingProduct)
    (hu : get_user_recommendations eng user_id count ex mr cats = .ok lu)
    (hs : get_similar_products eng product_id count = .ok ls)
    (ht : get_trending_products eng count cat twh growth = .ok lt) :
    (∀ r ∈ lu, 0 ≤ r.score ∧ r.score ≤ 1) ∧
    (∀ r ∈ get_popular_recommendations eng count cats mr, 0 ≤ r.score ∧ r.score ≤ 1) ∧
    (∀ s ∈ ls, 0 ≤ s.similarity_score ∧ s.similarity_score ≤ 1) ∧
    (∀ t ∈ lt, 0 ≤ t.trend_score) :=
  ⟨get_user_recommendations_bounds hu,
   get_popular_recommendations_bounds eng count cats mr,
   get_similar_products_bounds hs,
   get_trending_products_bounds ht⟩

/-- Interaction matrix of the C4 witness. -/
def mC4 : UIMatrix := ⟨["u"], ["P", "Q"], [("u", "P", 2), ("u", "Q", 1)]⟩

/-- Ready engine for the C4 witness. -/
def engC4 : Engine :=
  ⟨"r4", some mC4, none, some [[1]], some [[1, 1/2], [1/2, 1]], none, true, none⟩

/-- Witness for `c4_score_bounds` at a concrete ready engine with
nonempty results on all three paths. -/
theorem c4_witness :
    (get_user_recommendations engC4 "u" 1 true none none =
      .ok [⟨"P", none, none, 1, none, none, some "r4"⟩] ∧
     get_similar_products engC4 "P" 1 = .ok [⟨"Q", none, 1/2, none, none⟩] ∧
     get_trending_products engC4 1 none 24 (fun _ => 1/2) =
      .ok [⟨"P", none, none, 1, 2, 1/2, "r4"⟩]) ∧
    ((∀ r ∈ [(⟨"P", none, none, 1, none, none, some "r4"⟩ : RecommendationItem)],
        0 ≤ r.score ∧ r.score ≤ 1) ∧
     (∀ r ∈ get_popular_recommendations engC4 1 none none,
        0 ≤ r.score ∧ r.score ≤ 1) ∧
     (∀ s ∈ [(⟨"Q", none, 1/2, none, none⟩ : SimilarProduct)],
        0 ≤ s.similarity_score ∧ s.similarity_score ≤ 1) ∧
     (∀ t ∈ [(⟨"P", none, none, 1, 2, 1/2, "r4"⟩ : TrendingProduct)],
        0 ≤ t.trend_score)) :=
  ⟨⟨by with_unfolding_all rfl, by with_unfolding_all rfl, by with_unfolding_all rfl⟩,
   c4_score_bounds engC4 "u" "P" 1 24 true none none none (fun _ => 1/2) _ _ _
     (by with_unfolding_all rfl) (by with_unfolding_all rfl)
     (by with_unfolding_all rfl)⟩

/-- Claim C5 (amended): in `get_user_recommendations` the cut to
`count` is applied to the sorted candidate list BEFORE enrichment and
filtering: the personalised portion has at most `count` items and every
one of them stems from the top-`count` unfiltered candidates.  A
candidate dropped by the category filter therefore consumes one of the
`count` candidate slots, and the shortfall is refilled from the
popularity ranker, not from lower-ranked personalised candidates. -/
theorem c5_cut_before_filter (eng : Engine) (m : UIMatrix) (simRow : List ℚ)
    (purchased : List String) (count : Nat) (cats : Option (List String))
    (mr : Option ℚ) :
    (personalized_items eng m simRow purchased count cats mr).length ≤ count ∧
    ∀ r ∈ personalized_items eng m simRow purchased count cats mr,
      r.product_id ∈
        ((sortPairsDesc (candidate_scores m simRow purchased)).take count).map
          (fun x => x.1) := by
  constructor
  · unfold personalized_items
    exact le_trans (List.length_filterMap_le _ _) (List.length_take_le _ _)
  · intro r hr
    obtain ⟨a, ha, hc⟩ := List.mem_filterMap.mp hr
    rw [(create_recommendation_item_eq_some hc).1]
    exact List.mem_map_of_mem _ ha

/-- Product features of the C5 counterexample: P1 is in category "bad",
P2 and P3 in category "good". -/
def featC5 : Features :=
  [("P1", ⟨some "bad", none⟩), ("P2", ⟨some "good", none⟩), ("P3", ⟨some "good", none⟩)]

/-- Interaction matrix of the C5 counterexample: the neighbour `v`
rated P1 highest, then P2, then P3. -/
def mC5 : UIMatrix :=
  ⟨["u", "v"], ["P1", "P2", "P3"], [("v", "P1", 3), ("v", "P2", 2), ("v", "P3", 1)]⟩

/-- Ready engine for the C5 counterexample. -/
def engC5 : Engine :=
  ⟨"r5", some mC5, none, some [[1, 1/2], [1/2, 1]], none, some featC5, true, none⟩

/-- Claim C5 counterexample: requesting 2 items in category "good"
returns only [P2] although 2 candidates (P2 and P3) pass the filter —
the top-2 cut keeps [P1, P2] before filtering, P1 is then dropped by
the category filter and its slot is refilled from the popularity ranker
(which also yields P2, deduplicated away), so P3 never surfaces.  Under
the claim the result would be the top 2 of the filtered candidates,
[P2, P3]. -/
theorem c5_counterexample :
    get_user_recommendations engC5 "u" 2 false none (some ["good"]) =
      .ok [⟨"P2", some "good", some "good", 1, none, none, some "r5"⟩] ∧
    ((sortPairsDesc (candidate_scores mC5 [1, 1/2] [])).filterMap
      (fun ps => create_recommendation_item engC5 ps.1 ps.2 (some ["good"]) none)).length
      = 2 :=
  ⟨by with_unfolding_all rfl, by with_unfolding_all rfl⟩

/-! Claim C6: properties of the MERGE dedup loop. -/

theorem dedup_first_key_not_seen :
    ∀ {l : List RecommendationItem} {seen : List String} {r : RecommendationItem},
      r ∈ dedup_first seen l → r.product_id ∉ seen := by
  intro l
  induction l with
  | nil =>
    intro seen r hr
    rw [dedup_first] at hr
    cases hr
  | cons a rest ih =>
    intro seen r hr
    rw [dedup_first] at hr
    split at hr
    · exact ih hr
    · rcases List.mem_cons.mp hr with rfl | hr2
      · rename_i hc
        simpa using hc
      · intro hmem
        exact ih hr2 (List.mem_cons_of_mem _ hmem)

theorem dedup_first_nodup :
    ∀ (l : List RecommendationItem) (seen : List String),
      (recKeys (dedup_first seen l)).Nodup := by
  intro l
  induction l with
  | nil =>
    intro seen
    rw [dedup_first]
    exact List.nodup_nil
  | cons a rest ih =>
    intro seen
    rw [dedup_first]
    split
    · exact ih seen
    · unfold recKeys
      rw [List.map_cons]
      refine List.nodup_cons.mpr ⟨?_, ih (a.product_id :: seen)⟩
      intro hmem
      obtain ⟨r, hr, hpid⟩ := List.mem_map.mp hmem
      exact dedup_first_key_not_seen hr (hpid ▸ List.mem_cons_self _ _)

theorem dedup_first_find :
    ∀ {l : List RecommendationItem} {seen : List String} {r : RecommendationItem},
      r ∈ dedup_first seen l →
      l.find? (fun x => x.product_id == r.product_id) = some r := by
  intro l
  induction l with
  | nil =>
    intro seen r hr
    rw [dedup_first] at hr
    cases hr
  | cons a rest ih =>
    intro seen r hr
    rw [dedup_first] at hr
    split at hr
    · rename_i hc
      have hne : a.product_id ≠ r.product_id := by
        intro he
        exact dedup_first_key_not_seen hr (he ▸ (by simpa using hc))
      rw [List.find?_cons_of_neg _ (by simpa using hne)]
      exact ih hr
    · rcases List.mem_cons.mp hr with rfl | hr2
      · rw [List.find?_cons_of_pos _ (by simp)]
      · have hne : r.product_id ≠ a.product_id :=
          fun he => dedup_first_key_not_seen hr2 (he ▸ List.mem_cons_self _ _)
        rw [List.find?_cons_of_neg _ (by simpa using fun h => hne h.symm)]
        exact ih hr2

/-- Claim C6: for every nonempty region-result map, MERGE aggregation
returns a list whose product ids are pairwise distinct, sorted by score
descending, of length at most `count`, in which every entry is the
first occurrence of its product id in region-processing order. -/
theorem c6_merge_aggregation (rr : List (String × List RecommendationItem))
    (count : Nat) (hne : rr ≠ []) :
    (recKeys (aggregate_cross_region_results rr count .merge)).Nodup ∧
    List.Sorted scoreGe (aggregate_cross_region_results rr count .merge) ∧
    (aggregate_cross_region_results rr count .merge).length ≤ count ∧
    ∀ r ∈ aggregate_cross_region_results rr count .merge,
      (allRecsOf rr).find? (fun x => x.product_id == r.product_id) = some r := by
  have hagg : aggregate_cross_region_results rr count .merge = merge_aggregate rr count := by
    unfold aggregate_cross_region_results
    rw [if_neg (by simpa using hne)]
  rw [hagg]
  unfold merge_aggregate sortRecsDesc
  refine ⟨?_, ?_, ?_, ?_⟩
  · have h1 : (List.map (fun r => r.product_id) (dedup_first [] (allRecsOf rr))).Nodup :=
      dedup_first_nodup _ []
    have h2 : (List.map (fun r => r.product_id)
        (List.insertionSort scoreGe (dedup_first [] (allRecsOf rr)))).Nodup :=
      (((List.perm_insertionSort scoreGe _).map (fun r => r.product_id)).nodup_iff).mpr h1
    exact List.Nodup.sublist ((List.take_sublist count _).map _) h2
  · exact List.Pairwise.sublist (List.take_sublist count _)
      (List.sorted_insertionSort scoreGe _)
  · exact List.length_take_le _ _
  · intro r hr
    have hr2 : r ∈ List.insertionSort scoreGe (dedup_first [] (allRecsOf rr)) :=
      (List.take_sublist count _).subset hr
    have hr3 : r ∈ dedup_first [] (allRecsOf rr) :=
      (List.perm_insertionSort scoreGe _).subset hr2
    exact dedup_first_find hr3

/-- Region results for the C6/C7 witnesses: P1 appears in both regions
with scores 9/10 and 2/5. -/
def rrC6 : List (String × List RecommendationItem) :=
  [("A", [⟨"P1", none, none, 9/10, none, none, some "A"⟩,
          ⟨"P2", none, none, 1/2, none, none, some "A"⟩]),
   ("B", [⟨"P1", none, none, 2/5, none, none, some "B"⟩,
          ⟨"P3", none, none, 7/10, none, none, some "B"⟩])]

/-- Witness for `c6_merge_aggregation` at concrete overlapping region
results. -/
theorem c6_witness :
    rrC6 ≠ [] ∧
    ((recKeys (aggregate_cross_region_results rrC6 2 .merge)).Nodup ∧
     List.Sorted scoreGe (aggregate_cross_region_results rrC6 2 .merge) ∧
     (aggregate_cross_region_results rrC6 2 .merge).length ≤ 2 ∧
     ∀ r ∈ aggregate_cross_region_results rrC6 2 .merge,
       (allRecsOf rrC6).find? (fun x => x.product_id == r.product_id) = some r) :=
  ⟨by with_unfolding_all decide, c6_merge_aggregation rrC6 2 (by with_unfolding_all decide)⟩

/-! Claim C7: properties of the HIGHEST_SCORE best-instance fold. -/

theorem best_insert_mem {acc : List (String × RecommendationItem)}
    {r : RecommendationItem} {pid : String} {c : RecommendationItem}
    (h : (pid, c) ∈ best_insert acc r) :
    (pid, c) ∈ acc ∨ (pid = r.product_id ∧ c = r) := by
  induction acc with
  | nil =>
    rw [best_insert] at h
    rcases List.mem_singleton.mp h with h2
    exact Or.inr ⟨congrArg Prod.fst h2, congrArg Prod.snd h2⟩
  | cons hd rest ih =>
    obtain ⟨q, cur⟩ := hd
    rw [best_insert] at h
    split at h
    · rename_i hq
      split at h
      · rcases List.mem_cons.mp h with h2 | h2
        · have hq2 : q = r.product_id := by simpa using hq
          exact Or.inr ⟨(congrArg Prod.fst h2).trans hq2, congrArg Prod.snd h2⟩
        · exact Or.inl (List.mem_cons_of_mem _ h2)
      · rcases List.mem_cons.mp h with h2 | h2
        · exact Or.inl (h2 ▸ List.mem_cons_self _ _)
        · exact Or.inl (List.mem_cons_of_mem _ h2)
    · rcases List.mem_cons.mp h with h2 | h2
      · exact Or.inl (h2 ▸ List.mem_cons_self _ _)
      · rcases ih h2 with h3 | h3
        · exact Or.inl (List.mem_cons_of_mem _ h3)
        · exact Or.inr h3

theorem best_insert_key_iff {acc : List (String × RecommendationItem)}
    {r : RecommendationItem} {p : String} :
    p ∈ (best_insert acc r).map (fun x => x.1) ↔
      p ∈ acc.map (fun x => x.1) ∨ p = r.product_id := by
  induction acc with
  | nil =>
    rw [best_insert]
    simp
  | cons hd rest ih =>
    obtain ⟨q, cur⟩ := hd
    rw [best_insert]
    split
    · rename_i hq
      have hq2 : q = r.product_id := by simpa using hq
      split <;> simp [hq2] <;> tauto
    · simp only [List.map_cons, List.mem_cons, ih]
      tauto

theorem best_insert_keys_nodup {acc : List (String × RecommendationItem)}
    {r : RecommendationItem} (h : (acc.map (fun x => x.1)).Nodup) :
    ((best_insert acc r).map (fun x => x.1)).Nodup := by
  induction acc with
  | nil =>
    rw [best_insert]
    simp
  | cons hd rest ih =>
    obtain ⟨q, cur⟩ := hd
    rw [List.map_cons, List.nodup_cons] at h
    rw [best_insert]
    split
    · split <;> (rw [List.map_cons]; exact List.nodup_cons.mpr h)
    · rename_i hq
      rw [List.map_cons]
      refine List.nodup_cons.mpr ⟨?_, ih h.2⟩
      intro hmem
      rcases best_insert_key_iff.mp hmem with h2 | h2
      · exact h.1 h2
      · exact absurd h2 (by simpa using hq)

theorem best_insert_better {acc : List (String × RecommendationItem)}
    {r : RecommendationItem} {pid : String} {c : RecommendationItem}
    (hn : (acc.map (fun x => x.1)).Nodup)
    (h : (pid, c) ∈ best_insert acc r) (hpid : pid = r.product_id) :
    r.score ≤ c.score := by
  induction acc with
  | nil =>
    rw [best_insert] at h
    rcases List.mem_singleton.mp h with h2
    injection h2 with h21 h22
    subst h22
    exact le_refl _
  | cons hd rest ih =>
    obtain ⟨q, cur⟩ := hd
    rw [List.map_cons, List.nodup_cons] at hn
    rw [best_insert] at h
    split at h
    · rename_i hq
      have hq2 : q = r.product_id := by simpa using hq
      split at h
      · rename_i hlt
        rcases List.mem_cons.mp h with h2 | h2
        · injection h2 with h21 h22
          subst h22
          exact le_refl _
        · exact absurd (List.mem_map_of_mem (fun x => x.1) h2)
            (by simpa [hq2, ← hpid] using hn.1)
      · rename_i hlt
        rcases List.mem_cons.mp h with h2 | h2
        · injection h2 with h21 h22
          subst h22
          exact le_of_not_lt hlt
        · exact absurd (List.mem_map_of_mem (fun x => x.1) h2)
            (by simpa [hq2, ← hpid] using hn.1)
    · rename_i hq
      rcases List.mem_cons.mp h with h2 | h2
      · exact absurd (hpid ▸ congrArg Prod.fst h2).symm (by simpa using hq)
      · exact ih hn.2 h2

theorem best_insert_preserve {acc : List (String × RecommendationItem)}
    (r : RecommendationItem) {pid : String} {c : RecommendationItem}
    (h : (pid, c) ∈ acc) :
    ∃ c2, (pid, c2) ∈ best_insert acc r ∧ c.score ≤ c2.score := by
  induction acc with
  | nil => cases h
  | cons hd rest ih =>
    obtain ⟨q, cur⟩ := hd
    rw [best_insert]
    split
    · rename_i hq
      split
      · rename_i hlt
        rcases List.mem_cons.mp h with h2 | h2
        · injection h2 with h21 h22
          subst h21
          subst h22
          exact ⟨r, List.mem_cons_self _ _, le_of_lt hlt⟩
        · exact ⟨c, List.mem_cons_of_mem _ h2, le_refl _⟩
      · exact ⟨c, h, le_refl _⟩
    · rcases List.mem_cons.mp h with h2 | h2
      · exact ⟨c, h2 ▸ List.mem_cons_self _ _, le_refl _⟩
      · obtain ⟨c2, hc2, hle⟩ := ih h2
        exact ⟨c2, List.mem_cons_of_mem _ hc2, hle⟩

theorem best_insert_unique {L : List (String × RecommendationItem)} :
    (L.map (fun x => x.1)).Nodup →
    ∀ {pid : String} {a b : RecommendationItem},
      (pid, a) ∈ L → (pid, b) ∈ L → a = b := by
  induction L with
  | nil => intro _ pid a b ha; cases ha
  | cons hd rest ih =>
    obtain ⟨q, cur⟩ := hd
    intro hn pid a b ha hb
    rw [List.map_cons, List.nodup_cons] at hn
    rcases List.mem_cons.mp ha with ha2 | ha2 <;> rcases List.mem_cons.mp hb with hb2 | hb2
    · injection ha2 with ha21 ha22
      injection hb2 with hb21 hb22
      rw [ha22, hb22]
    · injection ha2 with he1 he2
      subst he1
      exact absurd (List.mem_map_of_mem (fun x => x.1) hb2) hn.1
    · injection hb2 with he1 he2
      subst he1
      exact absurd (List.mem_map_of_mem (fun x => x.1) ha2) hn.1
    · exact ih hn.2 ha2 hb2

theorem best_insert_inv_step {seen : List RecommendationItem}
    {acc : List (String × RecommendationItem)} (r : RecommendationItem)
    (hnodup : (acc.map (fun x => x.1)).Nodup)
    (hmem : ∀ pc ∈ acc, pc.2.product_id = pc.1 ∧ pc.2 ∈ seen ∧
       ∀ x ∈ seen, x.product_id = pc.1 → x.score ≤ pc.2.score)
    (hcover : ∀ x ∈ seen, x.product_id ∈ acc.map (fun x => x.1)) :
    ((best_insert acc r).map (fun x => x.1)).Nodup ∧
    (∀ pc ∈ best_insert acc r, pc.2.product_id = pc.1 ∧ pc.2 ∈ seen ++ [r] ∧
       ∀ x ∈ seen ++ [r], x.product_id = pc.1 → x.score ≤ pc.2.score) ∧
    (∀ x ∈ seen ++ [r], x.product_id ∈ (best_insert acc r).map (fun x => x.1)) := by
  refine ⟨best_insert_keys_nodup hnodup, ?_, ?_⟩
  · rintro ⟨pid, c⟩ hpc
    rcases best_insert_mem hpc with hin | ⟨hpid, hcr⟩
    · obtain ⟨hid, hseen, hmax⟩ := hmem _ hin
      refine ⟨hid, List.mem_append_left _ hseen, ?_⟩
      intro x hx hxid
      rcases List.mem_append.mp hx with hx2 | hx2
      · exact hmax x hx2 hxid
      · rcases List.mem_singleton.mp hx2 with rfl
        exact best_insert_better hnodup hpc hxid.symm
    · subst c
      refine ⟨hpid.symm, List.mem_append_right _ (List.mem_singleton_self _), ?_⟩
      intro x hx hxid
      rcases List.mem_append.mp hx with hx2 | hx2
      · have hxkey : x.product_id ∈ acc.map (fun y => y.1) := hcover x hx2
        obtain ⟨pc2, hpc2, hpc2id⟩ := List.mem_map.mp hxkey
        obtain ⟨hid2, hseen2, hmax2⟩ := hmem pc2 hpc2
        have hxle : x.score ≤ pc2.2.score := hmax2 x hx2 hpc2id.symm
        obtain ⟨c2, hc2mem, hc2le⟩ :=
          best_insert_preserve r (show (pc2.1, pc2.2) ∈ acc from hpc2)
        have hkey : pc2.1 = pid := hpc2id.trans hxid
        have hc2r : c2 = r :=
          best_insert_unique (best_insert_keys_nodup hnodup) (hkey ▸ hc2mem) hpc
        exact le_trans hxle (hc2r ▸ hc2le)
      · rcases List.mem_singleton.mp hx2 with rfl
        exact le_refl _
  · intro x hx
    rcases List.mem_append.mp hx with hx2 | hx2
    · exact best_insert_key_iff.mpr (Or.inl (hcover x hx2))
    · rcases List.mem_singleton.mp hx2 with rfl
      exact best_insert_key_iff.mpr (Or.inr rfl)

theorem best_fold_inv :
    ∀ (l : List RecommendationItem) (acc : List (String × RecommendationItem))
      (seen : List RecommendationItem),
      ((acc.map (fun x => x.1)).Nodup ∧
       (∀ pc ∈ acc, pc.2.product_id = pc.1 ∧ pc.2 ∈ seen ∧
          ∀ x ∈ seen, x.product_id = pc.1 → x.score ≤ pc.2.score) ∧
       (∀ x ∈ seen, x.product_id ∈ acc.map (fun x => x.1))) →
      (((l.foldl best_insert acc).map (fun x => x.1)).Nodup ∧
       (∀ pc ∈ l.foldl best_insert acc, pc.2.product_id = pc.1 ∧ pc.2 ∈ seen ++ l ∧
          ∀ x ∈ seen ++ l, x.product_id = pc.1 → x.score ≤ pc.2.score) ∧
       (∀ x ∈ seen ++ l, x.product_id ∈ (l.foldl best_insert acc).map (fun x => x.1))) := by
  intro l
  induction l with
  | nil =>
    intro acc seen h
    simpa using h
  | cons r rest ih =>
    intro acc seen h
    rw [List.foldl_cons]
    have hstep := best_insert_inv_step r h.1 h.2.1 h.2.2
    have hrec := ih (best_insert acc r) (seen ++ [r])
      ⟨hstep.1, hstep.2.1, hstep.2.2⟩
    simpa [List.append_assoc] using hrec

/-- Claim C7: for every nonempty region-result map, HIGHEST_SCORE
aggregation returns a list in which every entry is one of the submitted
items and carries the maximum score its product id attains across all
regions, each product id occurs at most once, sorted by score
descending, of length at most `count`; and whenever the number of
distinct product ids (the length of the best-instance fold) fits within
`count`, every submitted product id is represented. -/
theorem c7_highest_score_aggregation (rr : List (String × List RecommendationItem))
    (count : Nat) (hne : rr ≠ []) :
    (∀ r ∈ aggregate_cross_region_results rr count .highest_score,
       r ∈ allRecsOf rr ∧
       ∀ x ∈ allRecsOf rr, x.product_id = r.product_id → x.score ≤ r.score) ∧
    (recKeys (aggregate_cross_region_results rr count .highest_score)).Nodup ∧
    List.Sorted scoreGe (aggregate_cross_region_results rr count .highest_score) ∧
    (aggregate_cross_region_results rr count .highest_score).length ≤ count ∧
    (((allRecsOf rr).foldl best_insert []).length ≤ count →
      ∀ p ∈ recKeys (allRecsOf rr),
        ∃ r ∈ aggregate_cross_region_results rr count .highest_score,
          r.product_id = p) := by
  have hagg : aggregate_cross_region_results rr count .highest_score =
      highest_aggregate rr count := by
    unfold aggregate_cross_region_results
    rw [if_neg (by simpa using hne)]
  rw [hagg]
  unfold highest_aggregate sortRecsDesc
  have hinv := best_fold_inv (allRecsOf rr) [] []
    (by refine ⟨?_, ?_, ?_⟩ <;> simp)
  rw [List.nil_append] at hinv
  obtain ⟨hnodup, hmem, hcover⟩ := hinv
  refine ⟨?_, ?_, ?_, ?_, ?_⟩
  · intro r hr
    have hr2 : r ∈ List.insertionSort scoreGe
        (((allRecsOf rr).foldl best_insert []).map (fun x => x.2)) :=
      (List.take_sublist count _).subset hr
    have hr3 : r ∈ ((allRecsOf rr).foldl best_insert []).map (fun x => x.2) :=
      (List.perm_insertionSort scoreGe _).subset hr2
    obtain ⟨pc, hpc, hpcr⟩ := List.mem_map.mp hr3
    obtain ⟨hid, hseen, hmax⟩ := hmem pc hpc
    subst hpcr
    exact ⟨hseen, fun x hx hxid => hmax x hx (hxid.trans hid)⟩
  · have hkeys : List.map (fun r => r.product_id)
        (((allRecsOf rr).foldl best_insert []).map (fun x => x.2)) =
        ((allRecsOf rr).foldl best_insert []).map (fun x => x.1) := by
      rw [List.map_map]
      exact List.map_congr_left (fun pc hpc => (hmem pc hpc).1)
    have h2 : (List.map (fun r => r.product_id) (List.insertionSort scoreGe
        (((allRecsOf rr).foldl best_insert []).map (fun x => x.2)))).Nodup :=
      (((List.perm_insertionSort scoreGe _).map (fun r => r.product_id)).nodup_iff).mpr
        (hkeys ▸ hnodup)
    exact List.Nodup.sublist ((List.take_sublist count _).map _) h2
  · exact List.Pairwise.sublist (List.take_sublist count _)
      (List.sorted_insertionSort scoreGe _)
  · exact List.length_take_le _ _
  · intro hlen p hp
    obtain ⟨x, hx, hxid⟩ := List.mem_map.mp hp
    have hxkey : x.product_id ∈ ((allRecsOf rr).foldl best_insert []).map
        (fun y => y.1) := hcover x hx
    obtain ⟨pc, hpc, hpcid⟩ := List.mem_map.mp hxkey
    have hrmem : pc.2 ∈ ((allRecsOf rr).foldl best_insert []).map (fun y => y.2) :=
      List.mem_map_of_mem _ hpc
    have hsortmem : pc.2 ∈ List.insertionSort scoreGe
        (((allRecsOf rr).foldl best_insert []).map (fun y => y.2)) :=
      ((List.perm_insertionSort scoreGe _).mem_iff).mpr hrmem
    have htake : List.take count (List.insertionSort scoreGe
        (((allRecsOf rr).foldl best_insert []).map (fun y => y.2))) =
        List.insertionSort scoreGe
          (((allRecsOf rr).foldl best_insert []).map (fun y => y.2)) := by
      apply List.take_of_length_le
      rw [List.length_insertionSort, List.length_map]
      exact hlen
    rw [htake]
    exact ⟨pc.2, hsortmem, ((hmem pc hpc).1.trans hpcid).trans hxid⟩

/-- Witness for `c7_highest_score_aggregation` at concrete overlapping
region results (product P1 carries scores 9/10 and 2/5 in two regions;
`count = 3` covers all distinct ids). -/
theorem c7_witness :
    rrC6 ≠ [] ∧
    ((∀ r ∈ aggregate_cross_region_results rrC6 3 .highest_score,
        r ∈ allRecsOf rrC6 ∧
        ∀ x ∈ allRecsOf rrC6, x.product_id = r.product_id → x.score ≤ r.score) ∧
     (recKeys (aggregate_cross_region_results rrC6 3 .highest_score)).Nodup ∧
     List.Sorted scoreGe (aggregate_cross_region_results rrC6 3 .highest_score) ∧
     (aggregate_cross_region_results rrC6 3 .highest_score).length ≤ 3 ∧
     (((allRecsOf rrC6).foldl best_insert []).length ≤ 3 →
       ∀ p ∈ recKeys (allRecsOf rrC6),
         ∃ r ∈ aggregate_cross_region_results rrC6 3 .highest_score,
           r.product_id = p)) :=
  ⟨by with_unfolding_all decide, c7_highest_score_aggregation rrC6 3
    (by with_unfolding_all decide)⟩

/-! Claim C3: behaviour of the argsort-based self-exclusion of
`get_similar_products`. -/

theorem argsortDesc_perm (xs : List ℚ) :
    (argsortDesc xs).Perm (List.range xs.length) := by
  unfold argsortDesc argsortAsc
  exact (List.reverse_perm _).trans (List.perm_insertionSort _ _)

theorem argsortDesc_nodup (xs : List ℚ) : (argsortDesc xs).Nodup :=
  ((argsortDesc_perm xs).nodup_iff).mpr (List.nodup_range _)

theorem argsortDesc_mem {xs : List ℚ} {i : Nat} :
    i ∈ argsortDesc xs ↔ i < xs.length := by
  rw [(argsortDesc_perm xs).mem_iff, List.mem_range]

theorem argsortDesc_sorted (xs : List ℚ) :
    List.Pairwise (fun i j => xs.getD j 0 ≤ xs.getD i 0) (argsortDesc xs) := by
  haveI : IsTotal Nat (fun i j => xs.getD i 0 ≤ xs.getD j 0) := ⟨fun _ _ => le_total _ _⟩
  haveI : IsTrans Nat (fun i j => xs.getD i 0 ≤ xs.getD j 0) :=
    ⟨fun _ _ _ h1 h2 => le_trans h1 h2⟩
  unfold argsortDesc argsortAsc
  rw [List.pairwise_reverse]
  exact List.sorted_insertionSort _ _

/-- With a strictly maximal value at `idx`, the descending argsort
starts with `idx`. -/
theorem argsortDesc_head_eq (xs : List ℚ) (idx : Nat) (hidx : idx < xs.length)
    (hstrict : ∀ j < xs.length, j ≠ idx → xs.getD j 0 < xs.getD idx 0) :
    ∃ t, argsortDesc xs = idx :: t := by
  have hmem : idx ∈ argsortDesc xs := argsortDesc_mem.mpr hidx
  cases hL : argsortDesc xs with
  | nil =>
    rw [hL] at hmem
    cases hmem
  | cons h t =>
    rw [hL] at hmem
    by_cases hh : h = idx
    · exact ⟨t, by rw [hh]⟩
    · exfalso
      have hsorted := argsortDesc_sorted xs
      rw [hL] at hsorted
      have hbound := (List.pairwise_cons.mp hsorted).1
      rcases List.mem_cons.mp hmem with h2 | h2
      · exact hh h2.symm
      · have h3 : xs.getD idx 0 ≤ xs.getD h 0 := hbound idx h2
        have hhlen : h < xs.length := argsortDesc_mem.mp (hL ▸ List.mem_cons_self _ _)
        exact absurd h3 (not_le.mpr (hstrict h hhlen hh))

/-- Core of the amended C3 claim: when the queried product's similarity
is a strict maximum of its row (and the row has one entry per product
column), every index position `[1:count+1]` of the descending argsort
names a product different from the queried one. -/
theorem similar_indices_exclude_self (m : UIMatrix) (sims : SimMatrix)
    (product_id : String) (count : Nat)
    (hnodup : m.products.Nodup) (hmemp : product_id ∈ m.products)
    (hlen : (sims.getD (m.products.indexOf product_id) []).length = m.products.length)
    (hstrict : ∀ j < m.products.length, j ≠ m.products.indexOf product_id →
      (sims.getD (m.products.indexOf product_id) []).getD j 0 <
      (sims.getD (m.products.indexOf product_id) []).getD
        (m.products.indexOf product_id) 0) :
    ∀ i ∈ ((argsortDesc (sims.getD (m.products.indexOf product_id) [])).drop 1).take
        count, m.products.getD i "" ≠ product_id := by
  intro i hi
  have hidxlen : m.products.indexOf product_id < m.products.length :=
    List.indexOf_lt_length.mpr hmemp
  obtain ⟨t, hL⟩ := argsortDesc_head_eq (sims.getD (m.products.indexOf product_id) [])
    (m.products.indexOf product_id) (hlen ▸ hidxlen) (by rw [hlen]; exact hstrict)
  have hdrop : (argsortDesc (sims.getD (m.products.indexOf product_id) [])).drop 1 = t := by
    rw [hL]
    rfl
  rw [hdrop] at hi
  have hit : i ∈ t := (List.take_sublist _ _).subset hi
  have hnd := argsortDesc_nodup (sims.getD (m.products.indexOf product_id) [])
  rw [hL] at hnd
  have hne : i ≠ m.products.indexOf product_id :=
    fun he => (List.nodup_cons.mp hnd).1 (he ▸ hit)
  have hilen : i < m.products.length := by
    have hmem2 : i ∈ argsortDesc (sims.getD (m.products.indexOf product_id) []) :=
      hL ▸ List.mem_cons_of_mem _ hit
    exact hlen ▸ argsortDesc_mem.mp hmem2
  intro heq
  rw [List.getD_eq_getElem _ _ hilen] at heq
  have hidxget : m.products[m.products.indexOf product_id] = product_id :=
    List.getElem_indexOf hidxlen
  have hgeq : m.products[i] = m.products[m.products.indexOf product_id] := by
    rw [heq, hidxget]
  exact hne ((hnodup.getElem_inj_iff).mp hgeq)

/-- Claim C3 (amended): `get_similar_products` drops only the
top-ranked position of the descending similarity order; that position
is the queried product itself whenever the queried product's
self-similarity is strictly greater than every other entry of its row,
and in that case the queried product never appears in the output.
(Under ties at the maximum the queried product can appear; see the
counterexample.) -/
theorem c3_similar_excludes_self_when_strict_max
    (eng : Engine) (m : UIMatrix) (sims : SimMatrix) (product_id : String)
    (count : Nat) (l : List SimilarProduct)
    (hm : eng.user_item_matrix = some m) (hs : eng.item_similarities = some sims)
    (hnodup : m.products.Nodup)
    (hlen : (sims.getD (m.products.indexOf product_id) []).length = m.products.length)
    (hstrict : ∀ j < m.products.length, j ≠ m.products.indexOf product_id →
      (sims.getD (m.products.indexOf product_id) []).getD j 0 <
      (sims.getD (m.products.indexOf product_id) []).getD
        (m.products.indexOf product_id) 0)
    (hres : get_similar_products eng product_id count = .ok l) :
    ∀ s ∈ l, s.product_id ≠ product_id := by
  intro s hsl
  unfold get_similar_products at hres
  rw [hm, hs] at hres
  split at hres
  · cases hres
    cases hsl
  · dsimp only at hres
    by_cases hcont : m.products.contains product_id
    · rw [hcont] at hres
      rw [if_neg (by simp)] at hres
      split at hres
      · cases hres
        obtain ⟨o, ho, heq⟩ := List.mem_filterMap.mp hsl
        rw [id_eq] at heq
        subst heq
        obtain ⟨idx2, hidx2, hmk⟩ := List.mem_map.mp ho
        have hpid := (mkSimilarProduct_eq_some hmk).1
        rw [hpid]
        exact similar_indices_exclude_self m sims product_id count hnodup
          (by simpa using hcont) hlen hstrict idx2 hidx2
      · cases hres
        cases hsl
    · rw [Bool.not_eq_true] at hcont
      rw [hcont] at hres
      rw [if_pos (by simp)] at hres
      cases hres
      cases hsl

/-- Interaction matrix of the C3 counterexample (three product
columns). -/
def mC3 : UIMatrix := ⟨["u"], ["A", "B", "C"], [("u", "A", 1)]⟩

/-- Ready engine for the C3 counterexample: product B has item
similarity 1 to the queried product A — a tie with the self-similarity
diagonal entry. -/
def engC3 : Engine :=
  ⟨"r3", some mC3, none, none, some [[1, 1, 1/2], [1, 1, 1/2], [1/2, 1/2, 1]], none,
   true, none⟩

/-- Claim C3 counterexample: with another product tied at similarity
1.0, the dropped top-ranked argsort position is the tied product, and
the queried product id A itself is returned. -/
theorem c3_counterexample :
    get_similar_products engC3 "A" 1 = .ok [⟨"A", none, 1, none, none⟩] := by
  with_unfolding_all rfl

/-- Witness for `c3_similar_excludes_self_when_strict_max` at a
concrete engine whose queried row has a strict maximum on the
diagonal. -/
def mC3w : UIMatrix := ⟨["u"], ["A", "B"], [("u", "A", 1)]⟩

/-- Ready engine for the C3 witness. -/
def engC3w : Engine :=
  ⟨"r3", some mC3w, none, none, some [[1, 1/2], [1/2, 1]], none, true, none⟩

/-- Witness for the amended C3 theorem: all hypotheses hold at the
concrete engine and the returned product differs from the queried
one. -/
theorem c3_witness :
    (engC3w.user_item_matrix = some mC3w ∧ engC3w.item_similarities =
        some [[1, 1/2], [1/2, 1]] ∧
      mC3w.products.Nodup ∧
      (([[1, 1/2], [1/2, 1]] : SimMatrix).getD (mC3w.products.indexOf "A") []).length =
        mC3w.products.length ∧
      get_similar_products engC3w "A" 5 = .ok [⟨"B", none, 1/2, none, none⟩]) ∧
    ∀ s ∈ [(⟨"B", none, 1/2, none, none⟩ : SimilarProduct)], s.product_id ≠ "A" :=
  ⟨⟨rfl, rfl, by with_unfolding_all decide, by with_unfolding_all decide,
    by with_unfolding_all rfl⟩,
   c3_similar_excludes_self_when_strict_max engC3w mC3w [[1, 1/2], [1/2, 1]] "A" 5 _
     rfl rfl (by with_unfolding_all decide) (by with_unfolding_all decide)
     (by with_unfolding_all decide) (by with_unfolding_all rfl)⟩

end RecEngine
